import Mathlib

/-!
# Shallow embedding of the legacy-mm-processor event pipeline

This file embeds `src/services/SubmissionService.js` of the
`legacy-mm-processor` repository: the `handle` entry point, its Joi event
schema, and the enrichment helpers `getSubmission` / `getSubTrack`.

Modelling conventions:
* JavaScript numbers appearing in validated fields are modelled as `Rat`
  (the schema only ever checks integrality, positivity and ranges).
* A JSON message is modelled by `Msg`: the cases the code distinguishes are
  a falsy input value (`null` / `undefined` / `''`), a string on which
  `JSON.parse` throws, a parse result that is falsy (`'null'`, `'0'`,
  `'false'`, `'""'`), and a parsed event object (`EventJson`), whose fields
  are `Option`s so that missing fields are representable.
* The outside world (the Submission API and the Challenge Details API) is a
  parameter `Env`.  `Env.submissionResp i sid` is the body returned by the
  `i`-th `GET /submissions/...` call of one `handle` run (`none` models a
  request that failed / returned non-2xx, which `getSubmission` catches and
  turns into `undefined`); `Env.challengeResp cid` is the Challenge Details
  API body (`none` models a failed request, caught inside `getSubTrack`).
* Side effects are recorded in a trace (`List Action`): HTTP fetches, the
  two legacy-store mutations (`updateReviewScore` from
  MarathonSubmissionService and the final-score update through
  `LegacySubmissionIdService.updateReviewScore`), and debug logs.
* `handle` returns the trace together with an `Outcome`: `ok` when the JS
  function returns normally, `fault m` when it throws.
-/

namespace LegacyMM

/-- `s.split(sep)` on a character separator (JavaScript `String.split`
semantics: `''.split(c) = ['']`, separators at the ends produce empty
pieces).  Structural, so that the kernel can evaluate it. -/
def splitOnChar (sep : Char) : List Char → List String
  | [] => [""]
  | c :: cs =>
    match splitOnChar sep cs with
    | [] => [""]
    | h :: t => if c = sep then "" :: h :: t else String.mk (c :: h.data) :: t

/-- The whitespace characters removed by `String.prototype.trim`. -/
def isSpaceChar (c : Char) : Bool :=
  c = ' ' || c = '\t' || c = '\n' || c = '\r'

/-- `s.trim()`. -/
def trimChars (s : String) : String :=
  String.mk (((s.data.dropWhile isSpaceChar).reverse.dropWhile isSpaceChar).reverse)

/-- One hexadecimal digit, as accepted by Joi's guid check. -/
def isHexDigit (c : Char) : Bool :=
  c.isDigit || ('a' ≤ c && c ≤ 'f') || ('A' ≤ c && c ≤ 'F')

/-- `Joi.string().uuid()`: an 8-4-4-4-12 hyphen-separated hexadecimal string
(abstracting Joi's guid regular expression). -/
def isUuid (s : String) : Bool :=
  match splitOnChar '-' s.data with
  | [a, b, c, d, e] =>
    a.length == 8 && b.length == 4 && c.length == 4 && d.length == 4 && e.length == 12
      && (a ++ b ++ c ++ d ++ e).all isHexDigit
  | _ => false

/-- Whether `cs` contains `://` followed by at least one character
(helper for `isValidUri`). -/
def uriSepAux : List Char → Bool
  | [] => false
  | ':' :: '/' :: '/' :: rest => !rest.isEmpty
  | _ :: cs => uriSepAux cs

/-- `Joi.string().uri()` (abstracting Joi's RFC 3986 regular expression):
a nonempty scheme followed by `://` and a nonempty remainder. -/
def isValidUri (s : String) : Bool :=
  match s.data with
  | ':' :: _ => false
  | cs => uriSepAux cs

/-- The JSON value found at the payload's `id` key: a number or a string. -/
inductive IdVal where
  | num (n : Rat)
  | str (s : String)
deriving DecidableEq, Repr

/-- The JSON value found at the `timestamp` key, as seen by `Joi.date()`:
either a string that parses as a date or one that does not. -/
inductive DateVal where
  | valid (s : String)
  | invalid (s : String)
deriving DecidableEq, Repr

/-- The `metadata` sub-object of a payload. -/
structure Metadata where
  testType : Option String := none
deriving DecidableEq, Repr

/-- The `payload` object of a parsed event.  The fields through `metadata`
are the keys the Joi schema knows; `submissionId` and `aggregateScore` are
keys the schema does NOT list but the routing code reads from the original
event, and `unknownKeys` stands for any further unknown keys. -/
structure Payload where
  id : Option IdVal := none
  resource : Option String := none
  challengeId : Option Rat := none
  memberId : Option Rat := none
  submissionPhaseId : Option Rat := none
  url : Option String := none
  type : Option String := none
  legacySubmissionId : Option Rat := none
  isExample : Option Rat := none
  typeId : Option String := none
  score : Option Rat := none
  metadata : Option Metadata := none
  submissionId : Option String := none
  aggregateScore : Option Rat := none
  unknownKeys : List String := []
deriving DecidableEq, Repr

/-- A parsed (truthy) JSON event.  `mimeType` embeds the `'mime-type'` key
of the source schema. -/
structure EventJson where
  topic : Option String := none
  originator : Option String := none
  timestamp : Option DateVal := none
  mimeType : Option String := none
  payload : Option Payload := none
deriving DecidableEq, Repr

/-- The raw Kafka message value, classified the way `handle` does. -/
inductive Msg where
  | empty
  | malformed (err : String)
  | falsyJson
  | parsed (e : EventJson)
deriving DecidableEq, Repr

/-- `n` passes `Joi.number().integer().positive()`. -/
def isIntPos (n : Rat) : Bool :=
  n.den == 1 && decide (0 < n.num)

/-- The `id` alternative of the schema:
`Joi.number().integer().positive().required()` or `Joi.string().uuid()`. -/
def idValid : Option IdVal → Bool
  | none => false
  | some (IdVal.num n) => isIntPos n
  | some (IdVal.str s) => isUuid s

/-- Errors of a required `Joi.string()` key (Joi rejects the empty string). -/
def reqStrErrs (name : String) (v : Option String) : List String :=
  match v with
  | none => ["\"" ++ name ++ "\" is required"]
  | some s => if s = "" then ["\"" ++ name ++ "\" is not allowed to be empty"] else []

/-- Errors of an optional `Joi.string()` key. -/
def optStrErrs (name : String) (v : Option String) : List String :=
  match v with
  | none => []
  | some s => if s = "" then ["\"" ++ name ++ "\" is not allowed to be empty"] else []

/-- Errors of an optional `Joi.number().integer().positive()` key. -/
def optPosIntErrs (name : String) (v : Option Rat) : List String :=
  match v with
  | none => []
  | some n => if isIntPos n then [] else ["\"" ++ name ++ "\" must be a positive integer"]

/-- `payload.id` passes the schema: `idValid`. -/
def idErrs (v : Option IdVal) : List String :=
  if idValid v then [] else ["\"id\" does not match any of the allowed types"]

/-- An optional `resource` value is one of the three schema alternatives. -/
def resourceOk (v : Option String) : Bool :=
  match v with
  | none => true
  | some r => r == "submission" || r == "review" || r == "reviewSummation"

/-- Errors of the `resource` alternatives. -/
def resourceErrs (v : Option String) : List String :=
  if resourceOk v then []
  else ["\"resource\" must be one of submission, review, reviewSummation"]

/-- An optional `Joi.number().integer().positive()` value is valid. -/
def posIntOk (v : Option Rat) : Bool :=
  match v with
  | none => true
  | some n => isIntPos n

/-- An optional `Joi.string().uri()` value is valid. -/
def urlOk (v : Option String) : Bool :=
  match v with
  | none => true
  | some u => isValidUri u

/-- Errors of the `url` key. -/
def urlErrs (v : Option String) : List String :=
  if urlOk v then [] else ["\"url\" must be a valid uri"]

/-- An optional `isExample` value is `0` or `1`. -/
def isExampleOk (v : Option Rat) : Bool :=
  match v with
  | none => true
  | some n => n == 0 || n == 1

/-- Errors of the `isExample` key. -/
def isExampleErrs (v : Option Rat) : List String :=
  if isExampleOk v then [] else ["\"isExample\" must be one of 0, 1"]

/-- An optional `score` value lies in `[0, 100]`. -/
def scoreOk (v : Option Rat) : Bool :=
  match v with
  | none => true
  | some s => decide (0 ≤ s) && decide (s ≤ 100)

/-- Errors of the `score` key. -/
def scoreErrs (v : Option Rat) : List String :=
  if scoreOk v then [] else ["\"score\" must be between 0 and 100"]

/-- Errors of the `metadata` sub-object (its `testType` is required). -/
def metadataErrs (v : Option Metadata) : List String :=
  match v with
  | none => []
  | some m => reqStrErrs "testType" m.testType

/-- Validation errors of the `payload` sub-schema (error texts abstract
Joi's wording; what matters is which field produces an error and that all
errors are collected). -/
def validatePayloadErrors (p : Payload) : List String :=
  idErrs p.id
    ++ resourceErrs p.resource
    ++ optPosIntErrs "challengeId" p.challengeId
    ++ optPosIntErrs "memberId" p.memberId
    ++ optPosIntErrs "submissionPhaseId" p.submissionPhaseId
    ++ urlErrs p.url
    ++ optStrErrs "type" p.type
    ++ optPosIntErrs "legacySubmissionId" p.legacySubmissionId
    ++ isExampleErrs p.isExample
    ++ optStrErrs "typeId" p.typeId
    ++ scoreErrs p.score
    ++ metadataErrs p.metadata

/-- Errors of the required `Joi.date()` key. -/
def timestampErrs (v : Option DateVal) : List String :=
  match v with
  | none => ["\"timestamp\" is required"]
  | some (DateVal.valid _) => []
  | some (DateVal.invalid _) => ["\"timestamp\" must be a valid date"]

/-- Errors of the required `payload` key. -/
def payloadErrs (v : Option Payload) : List String :=
  match v with
  | none => ["\"payload\" is required"]
  | some p => validatePayloadErrors p

/-- All validation errors of `Joi.validate(event, eventSchema,
.. abortEarly false, stripUnknown true ..)`: every failing key contributes
its message, and the unknown payload keys (`submissionId`,
`aggregateScore`, `unknownKeys`) contribute none — they are stripped, not
rejected. -/
def validateErrors (e : EventJson) : List String :=
  reqStrErrs "topic" e.topic
    ++ reqStrErrs "originator" e.originator
    ++ timestampErrs e.timestamp
    ++ reqStrErrs "mime-type" e.mimeType
    ++ payloadErrs e.payload

/-- `stripUnknown: true` on the payload: the normalized value keeps only
the keys listed in the schema. -/
def stripPayload (p : Payload) : Payload :=
  { p with submissionId := none, aggregateScore := none, unknownKeys := [] }

/-- `validationResult.value`: the normalized event produced by Joi.  The
source computes it but keeps routing on the original `event`. -/
def joiValue (e : EventJson) : EventJson :=
  { e with payload := e.payload.map stripPayload }

/-- A minimal well-formed event used by sanity checks and witnesses below. -/
def baseEvent : EventJson :=
  { topic := some "t"
    originator := some "o"
    timestamp := some (DateVal.valid "2020-01-01T00:00:00Z")
    mimeType := some "application/json"
    payload := some { id := some (IdVal.num 42) } }

example : validateErrors baseEvent = [] := by decide

example : validateErrors { baseEvent with topic := none, originator := none }
    = ["\"topic\" is required", "\"originator\" is required"] := by decide

/-- The JSON body returned by the Challenge Details API: the fragment of
`result.data` that the nil-safe lookup `result.content[0].subTrack` walks. -/
structure ChallengeContent where
  subTrack : Option String := none
deriving DecidableEq, Repr

/-- The `result` object of the Challenge Details API body. -/
structure ChallengeResultObj where
  content : Option (List ChallengeContent) := none
deriving DecidableEq, Repr

/-- The Challenge Details API body. -/
structure ChallengeData where
  result : Option ChallengeResultObj := none
deriving DecidableEq, Repr

/-- The submission record returned by `GET /submissions/:id` (the fields
this pipeline reads). -/
structure SubmissionRecord where
  challengeId : Option Nat := none
  legacySubmissionId : Option Rat := none
deriving DecidableEq, Repr

/-- `_.get(result.data, 'result.content[0].subTrack')`: nil-safe deep
lookup — absence anywhere along the path yields `none`, never a fault. -/
def lodashGetSubTrack (d : ChallengeData) : Option String :=
  (d.result.bind (fun r => r.content.bind List.head?)).bind ChallengeContent.subTrack

/-- The external HTTP world of one `handle` run.  `submissionResp i sid` is
the outcome of the `i`-th submission fetch (`0`: the fetch inside
`getSubTrack`; `1`: the re-fetch of the reviewSummation branch); `none`
models a request error, which `getSubmission` catches, logs and turns into
an `undefined` return value.  `challengeResp cid` is likewise the outcome
of the challenge-details fetch. -/
structure Env where
  submissionResp : Nat → Option String → Option SubmissionRecord
  challengeResp : Option Nat → Option ChallengeData

/-- The configuration options the pipeline reads. -/
structure Config where
  KAFKA_NEW_SUBMISSION_TOPIC : String
  KAFKA_UPDATE_SUBMISSION_TOPIC : String
  KAFKA_NEW_SUBMISSION_ORIGINATOR : String
  CHALLENGE_SUBTRACK : String
  PAYLOAD_TYPES : String

/-- `s.split(',').map(x => x.trim())`. -/
def splitTrim (s : String) : List String :=
  (splitOnChar ',' s.data).map trimChars

/-- An observable side effect of one `handle` run. -/
inductive Action where
  | logDebug (msg : String)
  | fetchSubmission (callIdx : Nat) (sid : Option String)
  | fetchChallenge (cid : Option Nat)
  | updateReviewScoreCall (e : EventJson)
  | updateFinalScoreCall (legacyId : Rat) (score : Option Rat) (field : String)
deriving DecidableEq, Repr

/-- Whether an action mutates the legacy store. -/
def Action.isMutation : Action → Bool
  | Action.updateReviewScoreCall _ => true
  | Action.updateFinalScoreCall _ _ _ => true
  | _ => false

/-- Whether an action is an outbound enrichment (HTTP) call. -/
def Action.isEnrichment : Action → Bool
  | Action.fetchSubmission _ _ => true
  | Action.fetchChallenge _ => true
  | _ => false

/-- How one `handle` run ends: a normal return, or a thrown error. -/
inductive Outcome where
  | ok
  | fault (msg : String)
deriving DecidableEq, Repr

/-- The TypeError thrown by `sub.legacySubmissionId` when the second
submission fetch of the reviewSummation branch returned `undefined`. -/
def typeErrorMsg : String :=
  "TypeError: Cannot read property legacySubmissionId of undefined"

/-- `getSubTrack(submissionId, m2m)`: fetch the submission (call index 0);
on `undefined`, reading `submission.challengeId` throws inside the local
`try` and the catch returns `undefined`.  Otherwise fetch the challenge
details and walk `result.content[0].subTrack` nil-safely.  All failures
are caught: the function itself never faults. -/
def getSubTrack (env : Env) (sid : Option String) : List Action × Option String :=
  match env.submissionResp 0 sid with
  | none => ([Action.fetchSubmission 0 sid], none)
  | some sub =>
    match env.challengeResp sub.challengeId with
    | none => ([Action.fetchSubmission 0 sid, Action.fetchChallenge sub.challengeId], none)
    | some d =>
      ([Action.fetchSubmission 0 sid, Action.fetchChallenge sub.challengeId],
        lodashGetSubTrack d)

/-- `opt && list.includes(opt)` on an optional string: JS truthiness means
`some ""` is falsy and fails the test. -/
def truthyIncludes (v : Option String) (l : List String) : Bool :=
  match v with
  | none => false
  | some s => s != "" && l.contains s

/-- A drop: one debug log line and a normal return. -/
def dropLog (m : String) : List Action × Outcome :=
  ([Action.logDebug m], Outcome.ok)

/-- The branch stage of `handle` (reached once the SubTrack filter has
passed), translated clause by clause:
* `resource === 'review'`: dispatch `updateReviewScore(Axios, m2m, event,
  db)` when `typeId` is truthy and in the `PAYLOAD_TYPES` allow-set, else
  log `Skipped Invalid typeId`;
* `resource === 'reviewSummation'` on the new-submission topic: re-fetch
  the submission (call index 1); `sub.legacySubmissionId` throws a
  TypeError when `sub` is `undefined`; a falsy `legacySubmissionId` throws
  `legacySubmissionId not found`; otherwise one
  `LegacySubmissionIdService.updateReviewScore(db, legacyId,
  aggregateScore, 'finalScore')` call;
* anything else: fall through with no action. -/
def dispatch (env : Env) (cfg : Config) (e : EventJson) (p : Payload) :
    List Action × Outcome :=
  if p.resource = some "review" then
    if truthyIncludes p.typeId (splitTrim cfg.PAYLOAD_TYPES) then
      ([Action.updateReviewScoreCall e], Outcome.ok)
    else
      dropLog "Skipped Invalid typeId"
  else if p.resource = some "reviewSummation" then
    if e.topic = some cfg.KAFKA_NEW_SUBMISSION_TOPIC then
      match env.submissionResp 1 p.submissionId with
      | none => ([Action.fetchSubmission 1 p.submissionId], Outcome.fault typeErrorMsg)
      | some sub =>
        match sub.legacySubmissionId with
        | none =>
          ([Action.fetchSubmission 1 p.submissionId],
            Outcome.fault "legacySubmissionId not found")
        | some l =>
          if l = 0 then
            ([Action.fetchSubmission 1 p.submissionId],
              Outcome.fault "legacySubmissionId not found")
          else
            ([Action.fetchSubmission 1 p.submissionId,
              Action.updateFinalScoreCall l p.aggregateScore "finalScore"], Outcome.ok)
    else
      ([], Outcome.ok)
  else
    ([], Outcome.ok)

/-- `handle` on a parsed (truthy) event: validation, the topic, originator
and resource guards, the SubTrack relevance filter, then `dispatch`.
Routing reads the ORIGINAL `event` throughout — `validationResult.value`
(`joiValue`) is not consulted after the error check, exactly as in the
source. -/
def handleParsed (env : Env) (cfg : Config) (e : EventJson) : List Action × Outcome :=
  if validateErrors e ≠ [] then
    dropLog ("Skipped invalid event, reasons: "
      ++ String.intercalate ", " (validateErrors e))
  else if e.topic ≠ some cfg.KAFKA_NEW_SUBMISSION_TOPIC
      ∧ e.topic ≠ some cfg.KAFKA_UPDATE_SUBMISSION_TOPIC then
    dropLog "Skipped event from topic"
  else if e.originator ≠ some cfg.KAFKA_NEW_SUBMISSION_ORIGINATOR then
    dropLog "Skipped event from originator"
  else
    match e.payload with
    | none => dropLog "unreachable: a validated event carries a payload"
    | some p =>
      if p.resource = some "submission" then
        dropLog "Skipped event from resource submission"
      else
        if truthyIncludes (getSubTrack env p.submissionId).2
            (splitTrim cfg.CHALLENGE_SUBTRACK) then
          ((getSubTrack env p.submissionId).1 ++ (dispatch env cfg e p).1,
            (dispatch env cfg e p).2)
        else
          ((getSubTrack env p.submissionId).1 ++ [Action.logDebug "Skipping as NOT MM"],
            Outcome.ok)

/-- `handle(value, db, m2m, ...)`: the guards on the raw message value
(falsy value, `JSON.parse` throwing, falsy parse result) and the parsed
path. -/
def handle (env : Env) (cfg : Config) (msg : Msg) : List Action × Outcome :=
  match msg with
  | Msg.empty => dropLog "Skipped null or empty event"
  | Msg.malformed err => dropLog ("Skipped non well-formed JSON message: " ++ err)
  | Msg.falsyJson => dropLog "Skipped null or empty event"
  | Msg.parsed e => handleParsed env cfg e

/-- The hypotheses under which an event reaches the branch stage of
`handle`: it validates, passes the topic, originator and
resource-is-not-submission guards, and its resolved SubTrack passes the
relevance filter. -/
def ReachesBranch (env : Env) (cfg : Config) (e : EventJson) (p : Payload) : Prop :=
  validateErrors e = []
    ∧ (e.topic = some cfg.KAFKA_NEW_SUBMISSION_TOPIC
        ∨ e.topic = some cfg.KAFKA_UPDATE_SUBMISSION_TOPIC)
    ∧ e.originator = some cfg.KAFKA_NEW_SUBMISSION_ORIGINATOR
    ∧ e.payload = some p
    ∧ p.resource ≠ some "submission"
    ∧ truthyIncludes (getSubTrack env p.submissionId).2
        (splitTrim cfg.CHALLENGE_SUBTRACK) = true

/-! ## Concrete fixtures -/

/-- A concrete configuration (values mirror the docker-compose defaults). -/
def cfg0 : Config :=
  { KAFKA_NEW_SUBMISSION_TOPIC := "submission.notification.create"
    KAFKA_UPDATE_SUBMISSION_TOPIC := "submission.notification.update"
    KAFKA_NEW_SUBMISSION_ORIGINATOR := "submission-api"
    CHALLENGE_SUBTRACK := "DEVELOP_MARATHON_MATCH, MARATHON_MATCH"
    PAYLOAD_TYPES := "tid1,tid2" }

/-- A challenge-details body whose `result.content[0].subTrack` is the
marathon-match subtrack. -/
def mmChallengeData : ChallengeData :=
  { result := some { content := some [{ subTrack := some "DEVELOP_MARATHON_MATCH" }] } }

/-- An environment where every fetch succeeds and the challenge is a
marathon match. -/
def envMM : Env :=
  { submissionResp := fun _ _ =>
      some { challengeId := some 123, legacySubmissionId := some 9001 }
    challengeResp := fun _ => some mmChallengeData }

/-- A relevant review event. -/
def reviewEvent : EventJson :=
  { topic := some "submission.notification.create"
    originator := some "submission-api"
    timestamp := some (DateVal.valid "2020-01-01T00:00:00Z")
    mimeType := some "application/json"
    payload := some { id := some (IdVal.num 42)
                      resource := some "review"
                      typeId := some "tid1"
                      score := some 95
                      submissionId := some "42" } }

/-- A relevant reviewSummation event on the new-submission topic. -/
def summationEvent : EventJson :=
  { reviewEvent with
    payload := some { id := some (IdVal.num 42)
                      resource := some "reviewSummation"
                      submissionId := some "42"
                      aggregateScore := some 90 } }

example : validateErrors reviewEvent = [] := by decide

example : (handle envMM cfg0 (Msg.parsed reviewEvent)).1.filter Action.isMutation
    = [Action.updateReviewScoreCall reviewEvent] := by decide

example : (handle envMM cfg0 (Msg.parsed summationEvent)).1.filter Action.isMutation
    = [Action.updateFinalScoreCall 9001 (some 90) "finalScore"] := by decide

example : (handle envMM cfg0 (Msg.parsed summationEvent)).2 = Outcome.ok := by decide

/-- An environment whose first submission fetch (inside `getSubTrack`)
succeeds with a marathon-match challenge but whose second fetch (the
reviewSummation re-fetch) fails. -/
def envSecondFetchFails : Env :=
  { submissionResp := fun i _ =>
      if i = 0 then some { challengeId := some 123, legacySubmissionId := some 9001 }
      else none
    challengeResp := fun _ => some mmChallengeData }

/-- An environment whose challenge-details fetch fails, so the SubTrack is
never resolved. -/
def envChallengeFails : Env :=
  { submissionResp := fun _ _ =>
      some { challengeId := some 123, legacySubmissionId := some 9001 }
    challengeResp := fun _ => none }

/-- The `timestamp` value, when present, parses as a date. -/
def timestampWellFormed : Option DateVal → Bool
  | some (DateVal.invalid _) => false
  | _ => true

/-- The `metadata` sub-object, when present, carries a nonempty
`testType`. -/
def metadataOk (v : Option Metadata) : Bool :=
  match v with
  | none => true
  | some m => m.testType.isSome && (m.testType != some "")

/-- Every optional payload field that is present is well typed for its
schema entry (the `Payload` half of what the spec calls the InboundEvent
shape). -/
def PayloadWellTyped (p : Payload) : Bool :=
  resourceOk p.resource && posIntOk p.challengeId && posIntOk p.memberId
    && posIntOk p.submissionPhaseId && urlOk p.url && (p.type != some "")
    && posIntOk p.legacySubmissionId && isExampleOk p.isExample
    && (p.typeId != some "") && scoreOk p.score && metadataOk p.metadata

/-- Every field of the event that is present is well typed for the
InboundEvent shape (present strings nonempty, the timestamp a date, the
payload's optional fields valid). -/
def EventWellTyped (e : EventJson) : Bool :=
  (e.topic != some "") && (e.originator != some "") && (e.mimeType != some "")
    && timestampWellFormed e.timestamp && Option.all PayloadWellTyped e.payload

/-- The payload is present and its required `id` is a positive integer or
a UUID string. -/
def idPresentValid (v : Option Payload) : Bool :=
  match v with
  | none => false
  | some p => idValid p.id

/-- All required top-level fields are present (`topic`, `originator`,
`timestamp`, `mime-type`, `payload`) and `payload.id` is valid. -/
def RequiredPresent (e : EventJson) : Bool :=
  e.topic.isSome && e.originator.isSome && e.timestamp.isSome && e.mimeType.isSome
    && idPresentValid e.payload

/-- `e` with its payload's unknown fields replaced (used to state that
validation never depends on them). -/
def withUnknown (e : EventJson) (p : Payload) (ks : List String)
    (sid : Option String) (ag : Option Rat) : EventJson :=
  { e with payload := some { p with unknownKeys := ks
                                    submissionId := sid
                                    aggregateScore := ag } }

/-! ## Lemma layer -/

theorem getSubTrack_filter_mutation (env : Env) (sid : Option String) :
    (getSubTrack env sid).1.filter Action.isMutation = [] := by
  cases hs : env.submissionResp 0 sid with
  | none => simp [getSubTrack, hs, Action.isMutation]
  | some sub =>
    cases hc : env.challengeResp sub.challengeId
      <;> simp [getSubTrack, hs, hc, Action.isMutation]

theorem getSubTrack_mem_not_mutation (env : Env) (sid : Option String)
    (a : Action) (h : a ∈ (getSubTrack env sid).1) : a.isMutation = false := by
  cases hs : env.submissionResp 0 sid with
  | none =>
    simp [getSubTrack, hs] at h
    simp [h, Action.isMutation]
  | some sub =>
    cases hc : env.challengeResp sub.challengeId
      <;> simp [getSubTrack, hs, hc] at h
      <;> rcases h with h | h <;> simp [h, Action.isMutation]

theorem optStrErrs_ne_some_empty (name : String) (v : Option String)
    (h : optStrErrs name v = []) : v ≠ some "" := by
  intro hv
  subst hv
  simp [optStrErrs] at h

theorem validate_payload_isSome (e : EventJson) (h : validateErrors e = []) :
    ∃ p, e.payload = some p := by
  cases hp : e.payload with
  | none => simp [validateErrors, payloadErrs, hp] at h
  | some p => exact ⟨p, rfl⟩

theorem validate_typeId_ne_empty (e : EventJson) (p : Payload)
    (h : validateErrors e = []) (hp : e.payload = some p) :
    p.typeId ≠ some "" := by
  have hpl : validatePayloadErrors p = [] := by
    simp [validateErrors, payloadErrs, hp] at h
    exact h.2.2.2.2
  have ht : optStrErrs "typeId" p.typeId = [] := by
    simp [validatePayloadErrors] at hpl
    exact hpl.2.2.2.2.2.2.2.2.2.1
  exact optStrErrs_ne_some_empty _ _ ht

theorem handle_reachesBranch (env : Env) (cfg : Config) (e : EventJson) (p : Payload)
    (h : ReachesBranch env cfg e p) :
    handle env cfg (Msg.parsed e)
      = ((getSubTrack env p.submissionId).1 ++ (dispatch env cfg e p).1,
          (dispatch env cfg e p).2) := by
  obtain ⟨hv, ht, ho, hp, hr, hf⟩ := h
  rcases ht with ht | ht
    <;> simp [handle, handleParsed, hv, ht, ho, hp, hr, hf]

theorem dispatch_mutation_resource (env : Env) (cfg : Config) (e : EventJson)
    (p : Payload) (a : Action) (hmem : a ∈ (dispatch env cfg e p).1)
    (_hmut : a.isMutation = true) :
    p.resource = some "review" ∨ p.resource = some "reviewSummation" := by
  unfold dispatch at hmem
  split at hmem
  next hrev => exact Or.inl hrev
  next hrev =>
    split at hmem
    next hsum => exact Or.inr hsum
    next hsum => simp at hmem

/-! ## Claims -/

/-- C1: a legacy-store mutation (`updateReviewScore` or the final-score
update) appears in the trace of `handle` only when the message parsed to an
event whose resolved SubTrack is truthy and a member of the
`CHALLENGE_SUBTRACK` allow-set (comma-separated, trimmed), and whose
`payload.resource` is `review` or `reviewSummation`. -/
theorem c1_mutation_only_for_allowed_subtrack (env : Env) (cfg : Config)
    (msg : Msg) (a : Action) (hmem : a ∈ (handle env cfg msg).1)
    (hmut : a.isMutation = true) :
    ∃ e p, msg = Msg.parsed e ∧ e.payload = some p
      ∧ truthyIncludes (getSubTrack env p.submissionId).2
          (splitTrim cfg.CHALLENGE_SUBTRACK) = true
      ∧ (p.resource = some "review" ∨ p.resource = some "reviewSummation") := by
  cases msg with
  | empty => simp [handle, dropLog] at hmem; simp [hmem, Action.isMutation] at hmut
  | malformed err =>
    simp [handle, dropLog] at hmem; simp [hmem, Action.isMutation] at hmut
  | falsyJson => simp [handle, dropLog] at hmem; simp [hmem, Action.isMutation] at hmut
  | parsed e =>
    refine ⟨e, ?_⟩
    replace hmem : a ∈ (handleParsed env cfg e).1 := hmem
    unfold handleParsed at hmem
    split at hmem
    next => simp [dropLog] at hmem; simp [hmem, Action.isMutation] at hmut
    next hv =>
      split at hmem
      next => simp [dropLog] at hmem; simp [hmem, Action.isMutation] at hmut
      next =>
        split at hmem
        next => simp [dropLog] at hmem; simp [hmem, Action.isMutation] at hmut
        next =>
          split at hmem
          next => simp [dropLog] at hmem; simp [hmem, Action.isMutation] at hmut
          next p hp =>
            split at hmem
            next => simp [dropLog] at hmem; simp [hmem, Action.isMutation] at hmut
            next =>
              split at hmem
              next hf =>
                simp only [List.mem_append] at hmem
                rcases hmem with hmem | hmem
                · have := getSubTrack_mem_not_mutation env p.submissionId a hmem
                  rw [hmut] at this
                  exact absurd this (by simp)
                · exact ⟨p, rfl, hp, hf,
                    dispatch_mutation_resource env cfg e p a hmem hmut⟩
              next =>
                simp only [List.mem_append, List.mem_singleton] at hmem
                rcases hmem with hmem | hmem
                · have := getSubTrack_mem_not_mutation env p.submissionId a hmem
                  rw [hmut] at this
                  exact absurd this (by simp)
                · simp [hmem, Action.isMutation] at hmut

/-- Witness for C1: on the concrete review fixture the hypotheses hold and
the theorem produces the allow-set membership and the resource disjunction. -/
theorem c1_mutation_only_for_allowed_subtrack_witness :
    ∃ e p, Msg.parsed reviewEvent = Msg.parsed e ∧ e.payload = some p
      ∧ truthyIncludes (getSubTrack envMM p.submissionId).2
          (splitTrim cfg0.CHALLENGE_SUBTRACK) = true
      ∧ (p.resource = some "review" ∨ p.resource = some "reviewSummation") :=
  c1_mutation_only_for_allowed_subtrack envMM cfg0 (Msg.parsed reviewEvent)
    (Action.updateReviewScoreCall reviewEvent) (by decide) (by decide)

/-- C2: for a reviewSummation event that reaches the branch stage: on the
new-submission topic, a re-fetched record with a (truthy)
`legacySubmissionId` yields exactly one final-score update carrying the
payload's `aggregateScore` keyed on that id with field name `finalScore`;
a record without `legacySubmissionId` yields a fault and no update; on the
update-submission topic nothing happens and no fault is raised. -/
theorem c2_reviewSummation_final_score (env : Env) (cfg : Config) (e : EventJson)
    (p : Payload) (hb : ReachesBranch env cfg e p)
    (hr : p.resource = some "reviewSummation") :
    (∀ s l, e.topic = some cfg.KAFKA_NEW_SUBMISSION_TOPIC →
        env.submissionResp 1 p.submissionId = some s →
        s.legacySubmissionId = some l → l ≠ 0 →
        (handle env cfg (Msg.parsed e)).1.filter Action.isMutation
            = [Action.updateFinalScoreCall l p.aggregateScore "finalScore"]
          ∧ (handle env cfg (Msg.parsed e)).2 = Outcome.ok)
      ∧ (∀ s, e.topic = some cfg.KAFKA_NEW_SUBMISSION_TOPIC →
          env.submissionResp 1 p.submissionId = some s →
          s.legacySubmissionId = none →
          (handle env cfg (Msg.parsed e)).2 = Outcome.fault "legacySubmissionId not found"
            ∧ (handle env cfg (Msg.parsed e)).1.filter Action.isMutation = [])
      ∧ (e.topic = some cfg.KAFKA_UPDATE_SUBMISSION_TOPIC →
          cfg.KAFKA_UPDATE_SUBMISSION_TOPIC ≠ cfg.KAFKA_NEW_SUBMISSION_TOPIC →
          (handle env cfg (Msg.parsed e)).1.filter Action.isMutation = []
            ∧ (handle env cfg (Msg.parsed e)).2 = Outcome.ok) := by
  have hh := handle_reachesBranch env cfg e p hb
  refine ⟨?_, ?_, ?_⟩
  · intro s l ht hs hl hl0
    rw [hh]
    simp [List.filter_append, getSubTrack_filter_mutation, dispatch, hr, ht, hs, hl,
      hl0, Action.isMutation]
  · intro s ht hs hl
    rw [hh]
    simp [List.filter_append, getSubTrack_filter_mutation, dispatch, hr, ht, hs, hl,
      Action.isMutation]
  · intro ht hne
    rw [hh]
    simp [List.filter_append, getSubTrack_filter_mutation, dispatch, hr, ht, hne,
      Action.isMutation]

/-- Witness for C2: the concrete summation fixture reaches the branch, and
instantiating the first clause at the fetched record `9001` produces the
single final-score update. -/
theorem c2_reviewSummation_final_score_witness :
    (handle envMM cfg0 (Msg.parsed summationEvent)).1.filter Action.isMutation
        = [Action.updateFinalScoreCall 9001 (some 90) "finalScore"]
      ∧ (handle envMM cfg0 (Msg.parsed summationEvent)).2 = Outcome.ok := by
  have h := c2_reviewSummation_final_score envMM cfg0 summationEvent
    { id := some (IdVal.num 42)
      resource := some "reviewSummation"
      submissionId := some "42"
      aggregateScore := some 90 }
    (by refine ⟨by decide, Or.inl (by decide), by decide, by decide, by decide, by decide⟩)
    (by decide)
  exact h.1 { challengeId := some 123, legacySubmissionId := some 9001 } 9001
    (by decide) (by decide) (by decide) (by decide)

/-- C6: for a review event that reaches the branch stage: a `typeId` that
is present and in the `PAYLOAD_TYPES` allow-set yields exactly one
review-score update call carrying the event; otherwise no mutation occurs,
no fault is raised, and the drop is logged. -/
theorem c6_review_typeId_gate (env : Env) (cfg : Config) (e : EventJson)
    (p : Payload) (hb : ReachesBranch env cfg e p)
    (hr : p.resource = some "review") :
    (∀ t, p.typeId = some t → t ∈ splitTrim cfg.PAYLOAD_TYPES →
        (handle env cfg (Msg.parsed e)).1.filter Action.isMutation
            = [Action.updateReviewScoreCall e]
          ∧ (handle env cfg (Msg.parsed e)).2 = Outcome.ok)
      ∧ ((∀ t, p.typeId = some t → t ∉ splitTrim cfg.PAYLOAD_TYPES) →
          (handle env cfg (Msg.parsed e)).1.filter Action.isMutation = []
            ∧ (handle env cfg (Msg.parsed e)).2 = Outcome.ok
            ∧ Action.logDebug "Skipped Invalid typeId" ∈ (handle env cfg (Msg.parsed e)).1) := by
  have hh := handle_reachesBranch env cfg e p hb
  constructor
  · intro t htid hmem
    have hne : t ≠ "" := by
      intro h0
      exact validate_typeId_ne_empty e p hb.1 hb.2.2.2.1 (h0 ▸ htid)
    rw [hh]
    simp [List.filter_append, getSubTrack_filter_mutation, dispatch, hr, htid,
      truthyIncludes, hne, hmem, Action.isMutation]
  · intro hno
    have hfalse : truthyIncludes p.typeId (splitTrim cfg.PAYLOAD_TYPES) = false := by
      cases htid : p.typeId with
      | none => simp [truthyIncludes]
      | some t =>
        have := hno t htid
        simp [truthyIncludes, this]
    rw [hh]
    simp [List.filter_append, getSubTrack_filter_mutation, dispatch, hr, hfalse,
      Action.isMutation, dropLog]

/-- Witness for C6: the concrete review fixture reaches the branch with
`typeId` `tid1`, which is in the allow-set, and the theorem yields the
single review-score update. -/
theorem c6_review_typeId_gate_witness :
    (handle envMM cfg0 (Msg.parsed reviewEvent)).1.filter Action.isMutation
        = [Action.updateReviewScoreCall reviewEvent]
      ∧ (handle envMM cfg0 (Msg.parsed reviewEvent)).2 = Outcome.ok := by
  have h := c6_review_typeId_gate envMM cfg0 reviewEvent
    { id := some (IdVal.num 42)
      resource := some "review"
      typeId := some "tid1"
      score := some 95
      submissionId := some "42" }
    (by refine ⟨by decide, Or.inl (by decide), by decide, by decide, by decide, by decide⟩)
    (by decide)
  exact h.1 "tid1" (by decide) (by decide)

/-- C3: on a string that is not well-formed JSON, `handle` catches the
parse error, logs at debug level and returns normally, with no legacy-store
mutation and no enrichment call. -/
theorem c3_malformed_json_silent_drop (env : Env) (cfg : Config) (err : String) :
    handle env cfg (Msg.malformed err)
        = ([Action.logDebug ("Skipped non well-formed JSON message: " ++ err)], Outcome.ok)
      ∧ (handle env cfg (Msg.malformed err)).1.filter Action.isMutation = []
      ∧ (handle env cfg (Msg.malformed err)).1.filter Action.isEnrichment = [] :=
  ⟨rfl, rfl, rfl⟩

/-- C10: on a falsy message value (null / undefined / empty string) and on
a message whose JSON parse yields a falsy value, `handle` returns normally
after a debug log, with no mutation and no enrichment call (validation is
never reached). -/
theorem c10_falsy_message_guards (env : Env) (cfg : Config) :
    handle env cfg Msg.empty = ([Action.logDebug "Skipped null or empty event"], Outcome.ok)
      ∧ handle env cfg Msg.falsyJson
          = ([Action.logDebug "Skipped null or empty event"], Outcome.ok)
      ∧ (handle env cfg Msg.empty).1.filter Action.isMutation = []
      ∧ (handle env cfg Msg.empty).1.filter Action.isEnrichment = []
      ∧ (handle env cfg Msg.falsyJson).1.filter Action.isMutation = []
      ∧ (handle env cfg Msg.falsyJson).1.filter Action.isEnrichment = [] :=
  ⟨rfl, rfl, rfl, rfl, rfl, rfl⟩

/-- C7: an event whose topic matches neither configured topic, or whose
originator differs from the configured originator, or whose
`payload.resource` is `submission`, is dropped: no mutation, no enrichment
call (the guards run before `getSubTrack`), and a normal return. -/
theorem c7_guards_precede_enrichment (env : Env) (cfg : Config) (e : EventJson)
    (h : (e.topic ≠ some cfg.KAFKA_NEW_SUBMISSION_TOPIC
          ∧ e.topic ≠ some cfg.KAFKA_UPDATE_SUBMISSION_TOPIC)
        ∨ e.originator ≠ some cfg.KAFKA_NEW_SUBMISSION_ORIGINATOR
        ∨ e.payload.bind Payload.resource = some "submission") :
    (handle env cfg (Msg.parsed e)).1.filter Action.isMutation = []
      ∧ (handle env cfg (Msg.parsed e)).1.filter Action.isEnrichment = []
      ∧ (handle env cfg (Msg.parsed e)).2 = Outcome.ok := by
  show (handleParsed env cfg e).1.filter Action.isMutation = []
      ∧ (handleParsed env cfg e).1.filter Action.isEnrichment = []
      ∧ (handleParsed env cfg e).2 = Outcome.ok
  unfold handleParsed
  split
  next => simp [dropLog, Action.isMutation, Action.isEnrichment]
  next hv =>
    split
    next => simp [dropLog, Action.isMutation, Action.isEnrichment]
    next htopic =>
      split
      next => simp [dropLog, Action.isMutation, Action.isEnrichment]
      next horig =>
        split
        next => simp [dropLog, Action.isMutation, Action.isEnrichment]
        next p hp =>
          split
          next => simp [dropLog, Action.isMutation, Action.isEnrichment]
          next hres =>
            exfalso
            rcases h with h | h | h
            · exact htopic h
            · exact horig h
            · rw [hp] at h
              exact hres (by simpa using h)

/-! ## Validation shape (C8, C9) -/

theorem optStrErrs_nil_iff (name : String) (v : Option String) :
    optStrErrs name v = [] ↔ (v != some "") = true := by
  cases v with
  | none => simp [optStrErrs]
  | some s => by_cases h : s = "" <;> simp [optStrErrs, h]

theorem reqStrErrs_nil_iff (name : String) (v : Option String)
    (h : (v != some "") = true) : reqStrErrs name v = [] ↔ v.isSome = true := by
  cases v with
  | none => simp [reqStrErrs]
  | some s =>
    simp only [bne_iff_ne, ne_eq, Option.some.injEq] at h
    simp [reqStrErrs, h]

theorem optPosIntErrs_nil_iff (name : String) (v : Option Rat) :
    optPosIntErrs name v = [] ↔ posIntOk v = true := by
  cases v with
  | none => simp [optPosIntErrs, posIntOk]
  | some n => cases h : isIntPos n <;> simp [optPosIntErrs, posIntOk, h]

theorem idErrs_nil_iff (v : Option IdVal) : idErrs v = [] ↔ idValid v = true := by
  cases h : idValid v <;> simp [idErrs, h]

theorem resourceErrs_nil_iff (v : Option String) :
    resourceErrs v = [] ↔ resourceOk v = true := by
  cases h : resourceOk v <;> simp [resourceErrs, h]

theorem urlErrs_nil_iff (v : Option String) : urlErrs v = [] ↔ urlOk v = true := by
  cases h : urlOk v <;> simp [urlErrs, h]

theorem isExampleErrs_nil_iff (v : Option Rat) :
    isExampleErrs v = [] ↔ isExampleOk v = true := by
  cases h : isExampleOk v <;> simp [isExampleErrs, h]

theorem scoreErrs_nil_iff (v : Option Rat) : scoreErrs v = [] ↔ scoreOk v = true := by
  cases h : scoreOk v <;> simp [scoreErrs, h]

theorem metadataErrs_nil_iff (v : Option Metadata) :
    metadataErrs v = [] ↔ metadataOk v = true := by
  cases v with
  | none => simp [metadataErrs, metadataOk]
  | some m =>
    cases ht : m.testType with
    | none => simp [metadataErrs, metadataOk, reqStrErrs, ht]
    | some t => by_cases h : t = "" <;> simp [metadataErrs, metadataOk, reqStrErrs, ht, h]

theorem timestampErrs_nil_iff (v : Option DateVal) (h : timestampWellFormed v = true) :
    timestampErrs v = [] ↔ v.isSome = true := by
  cases v with
  | none => simp [timestampErrs]
  | some dv =>
    cases dv with
    | valid s => simp [timestampErrs]
    | invalid s => simp [timestampWellFormed] at h

theorem validatePayloadErrors_nil_iff (p : Payload) (hw : PayloadWellTyped p = true) :
    validatePayloadErrors p = [] ↔ idValid p.id = true := by
  unfold PayloadWellTyped at hw
  simp only [Bool.and_eq_true] at hw
  obtain ⟨⟨⟨⟨⟨⟨⟨⟨⟨⟨h1, h2⟩, h3⟩, h4⟩, h5⟩, h6⟩, h7⟩, h8⟩, h9⟩, h10⟩, h11⟩ := hw
  have e2 := (resourceErrs_nil_iff p.resource).mpr h1
  have e3 := (optPosIntErrs_nil_iff "challengeId" p.challengeId).mpr h2
  have e4 := (optPosIntErrs_nil_iff "memberId" p.memberId).mpr h3
  have e5 := (optPosIntErrs_nil_iff "submissionPhaseId" p.submissionPhaseId).mpr h4
  have e6 := (urlErrs_nil_iff p.url).mpr h5
  have e7 := (optStrErrs_nil_iff "type" p.type).mpr h6
  have e8 := (optPosIntErrs_nil_iff "legacySubmissionId" p.legacySubmissionId).mpr h7
  have e9 := (isExampleErrs_nil_iff p.isExample).mpr h8
  have e10 := (optStrErrs_nil_iff "typeId" p.typeId).mpr h9
  have e11 := (scoreErrs_nil_iff p.score).mpr h10
  have e12 := (metadataErrs_nil_iff p.metadata).mpr h11
  simp [validatePayloadErrors, e2, e3, e4, e5, e6, e7, e8, e9, e10, e11, e12,
    idErrs_nil_iff]

theorem validateErrors_nil_iff (e : EventJson) (hw : EventWellTyped e = true) :
    validateErrors e = [] ↔ RequiredPresent e = true := by
  unfold EventWellTyped at hw
  simp only [Bool.and_eq_true] at hw
  obtain ⟨⟨⟨⟨h1, h2⟩, h3⟩, h4⟩, h5⟩ := hw
  unfold validateErrors RequiredPresent
  simp only [List.append_eq_nil, Bool.and_eq_true]
  rw [reqStrErrs_nil_iff _ _ h1, reqStrErrs_nil_iff _ _ h2,
    timestampErrs_nil_iff _ h4, reqStrErrs_nil_iff _ _ h3]
  cases hp : e.payload with
  | none => simp [payloadErrs, idPresentValid]
  | some p =>
    rw [hp] at h5
    simp only [Option.all] at h5
    simp [payloadErrs, idPresentValid, validatePayloadErrors_nil_iff p h5]

/-- C8: among well-typed events, validation accepts exactly those carrying
all required top-level fields with `payload.id` a positive integer or a
UUID string; an event failing that is rejected and dropped (no mutation,
no enrichment call, normal return). -/
theorem c8_required_fields_acceptance (env : Env) (cfg : Config) (e : EventJson)
    (hw : EventWellTyped e = true) :
    (validateErrors e = [] ↔ RequiredPresent e = true)
      ∧ (RequiredPresent e = false →
          (handle env cfg (Msg.parsed e)).1.filter Action.isMutation = []
            ∧ (handle env cfg (Msg.parsed e)).1.filter Action.isEnrichment = []
            ∧ (handle env cfg (Msg.parsed e)).2 = Outcome.ok) := by
  have hiff := validateErrors_nil_iff e hw
  refine ⟨hiff, fun hrp => ?_⟩
  have hne : validateErrors e ≠ [] := by
    intro h0
    have := hiff.mp h0
    rw [this] at hrp
    cases hrp
  show (handleParsed env cfg e).1.filter Action.isMutation = []
      ∧ (handleParsed env cfg e).1.filter Action.isEnrichment = []
      ∧ (handleParsed env cfg e).2 = Outcome.ok
  unfold handleParsed
  rw [if_pos hne]
  simp [dropLog, Action.isMutation, Action.isEnrichment]

/-- Witness for C8: both an accepted event (all required fields, integer
id) and a rejected one (missing payload) instantiate the theorem. -/
theorem c8_required_fields_acceptance_witness :
    ((validateErrors baseEvent = [] ↔ RequiredPresent baseEvent = true)
        ∧ validateErrors baseEvent = [])
      ∧ ((validateErrors { baseEvent with payload := none } = []
            ↔ RequiredPresent { baseEvent with payload := none } = true)
          ∧ (handle envMM cfg0 (Msg.parsed { baseEvent with payload := none })).2
              = Outcome.ok) :=
  ⟨⟨(c8_required_fields_acceptance envMM cfg0 baseEvent (by decide)).1, by decide⟩,
    ⟨(c8_required_fields_acceptance envMM cfg0 { baseEvent with payload := none }
        (by decide)).1,
      ((c8_required_fields_acceptance envMM cfg0 { baseEvent with payload := none }
        (by decide)).2 (by decide)).2.2⟩⟩

/-- C9: on every event failing validation, `handle` drops it after logging
the single diagnostic obtained by joining ALL collected field errors with a
comma (abortEarly is off, so the error list is not cut at the first
failure: errors of independent fields coexist, e.g. a missing `topic` and a
missing `originator` are both reported). -/
theorem c9_collects_all_errors (env : Env) (cfg : Config) (e : EventJson)
    (hv : validateErrors e ≠ []) :
    handle env cfg (Msg.parsed e)
        = ([Action.logDebug ("Skipped invalid event, reasons: "
            ++ String.intercalate ", " (validateErrors e))], Outcome.ok)
      ∧ (e.topic = none → "\"topic\" is required" ∈ validateErrors e)
      ∧ (e.originator = none → "\"originator\" is required" ∈ validateErrors e) := by
  refine ⟨?_, fun ht => ?_, fun ho => ?_⟩
  · show handleParsed env cfg e = _
    unfold handleParsed
    rw [if_pos hv]
    rfl
  · simp [validateErrors, reqStrErrs, ht]
  · simp [validateErrors, reqStrErrs, ho]

/-- Witness for C9: an event missing both `topic` and `originator` yields
both diagnostics, joined into one logged message. -/
theorem c9_collects_all_errors_witness :
    (handle envMM cfg0 (Msg.parsed { baseEvent with topic := none, originator := none })
          = ([Action.logDebug ("Skipped invalid event, reasons: "
              ++ String.intercalate ", "
                (validateErrors { baseEvent with topic := none, originator := none }))],
            Outcome.ok)
        ∧ (({ baseEvent with topic := none, originator := none } : EventJson).topic = none →
            "\"topic\" is required"
              ∈ validateErrors { baseEvent with topic := none, originator := none })
        ∧ (({ baseEvent with topic := none, originator := none } : EventJson).originator = none →
            "\"originator\" is required"
              ∈ validateErrors { baseEvent with topic := none, originator := none }))
      ∧ validateErrors { baseEvent with topic := none, originator := none }
          = ["\"topic\" is required", "\"originator\" is required"] :=
  ⟨c9_collects_all_errors envMM cfg0 _ (by decide), by decide⟩

/-- Witness for C7: the base fixture's topic `t` matches neither configured
topic, so the event is dropped before any enrichment call. -/
theorem c7_guards_precede_enrichment_witness :
    (handle envMM cfg0 (Msg.parsed baseEvent)).1.filter Action.isMutation = []
      ∧ (handle envMM cfg0 (Msg.parsed baseEvent)).1.filter Action.isEnrichment = []
      ∧ (handle envMM cfg0 (Msg.parsed baseEvent)).2 = Outcome.ok :=
  c7_guards_precede_enrichment envMM cfg0 baseEvent (Or.inl (by decide))

/-! ## C4: enrichment failure semantics -/

/-- Counterexample to C4: with the summation fixture, the SubTrack resolves
and the branch is reached, but the second submission fetch fails; `handle`
then throws (reading `legacySubmissionId` of `undefined`) instead of
treating the failure as unresolved enrichment — so the claim's "on every
path, including the reviewSummation branch's second submission fetch" is
false on the code. -/
theorem c4_counterexample :
    envSecondFetchFails.submissionResp 1 (some "42") = none
      ∧ (handle envSecondFetchFails cfg0 (Msg.parsed summationEvent)).2
          = Outcome.fault typeErrorMsg
      ∧ (handle envSecondFetchFails cfg0 (Msg.parsed summationEvent)).2 ≠ Outcome.ok :=
  ⟨rfl, by decide, by decide⟩

/-- C4 (amended): a failure of either enrichment call inside `getSubTrack`
(or a nil-safe miss of `result.content[0].subTrack`) leaves the SubTrack
unresolved, and `handle` then returns normally with no mutation — the event
is dropped by the relevance filter; but on the reviewSummation branch, a
failure of the second submission fetch raises a fault (a TypeError) to the
caller. -/
theorem c4_enrichment_failure_semantics (env : Env) (cfg : Config) (e : EventJson)
    (p : Payload) (hp : e.payload = some p) :
    ((getSubTrack env p.submissionId).2 = none →
        (handle env cfg (Msg.parsed e)).2 = Outcome.ok
          ∧ (handle env cfg (Msg.parsed e)).1.filter Action.isMutation = [])
      ∧ (ReachesBranch env cfg e p → p.resource = some "reviewSummation" →
          e.topic = some cfg.KAFKA_NEW_SUBMISSION_TOPIC →
          env.submissionResp 1 p.submissionId = none →
          (handle env cfg (Msg.parsed e)).2 = Outcome.fault typeErrorMsg) := by
  constructor
  · intro hsub
    show (handleParsed env cfg e).2 = Outcome.ok
        ∧ (handleParsed env cfg e).1.filter Action.isMutation = []
    unfold handleParsed
    split
    next => simp [dropLog, Action.isMutation]
    next =>
      split
      next => simp [dropLog, Action.isMutation]
      next =>
        split
        next => simp [dropLog, Action.isMutation]
        next =>
          split
          next => simp [dropLog, Action.isMutation]
          next q hq =>
            rw [hp] at hq
            injection hq with hq
            subst hq
            split
            next => simp [dropLog, Action.isMutation]
            next =>
              split
              next hcond =>
                rw [hsub] at hcond
                simp [truthyIncludes] at hcond
              next =>
                simp [List.filter_append, getSubTrack_filter_mutation, Action.isMutation]
  · intro hb hr ht hfail
    rw [handle_reachesBranch env cfg e p hb]
    simp [dispatch, hr, ht, hfail]

/-- Witness for C4 (amended): with the challenge fetch failing, the
summation fixture's SubTrack is unresolved and `handle` drops the event
normally with no mutation. -/
theorem c4_enrichment_failure_semantics_witness :
    (handle envChallengeFails cfg0 (Msg.parsed summationEvent)).2 = Outcome.ok
      ∧ (handle envChallengeFails cfg0 (Msg.parsed summationEvent)).1.filter
          Action.isMutation = [] :=
  (c4_enrichment_failure_semantics envChallengeFails cfg0 summationEvent
      { id := some (IdVal.num 42)
        resource := some "reviewSummation"
        submissionId := some "42"
        aggregateScore := some 90 } rfl).1 (by decide)

/-- C5: unknown payload fields are tolerated and stripped: the validation
result never depends on the unknown fields (`submissionId`,
`aggregateScore`, any further unknown keys), so an otherwise-valid event
with unknown fields validates, and the normalized value
(`validationResult.value`) carries the payload with those fields removed. -/
theorem c5_unknown_fields_stripped (e : EventJson) (p : Payload)
    (hp : e.payload = some p) :
    (∀ ks sid ag, validateErrors (withUnknown e p ks sid ag) = validateErrors e)
      ∧ (joiValue e).payload = some (stripPayload p)
      ∧ (stripPayload p).submissionId = none
      ∧ (stripPayload p).aggregateScore = none
      ∧ (stripPayload p).unknownKeys = [] := by
  obtain ⟨f1, f2, f3, f4, f5, f6, f7, f8, f9, f10, f11, f12, f13, f14, f15⟩ := p
  refine ⟨fun ks sid ag => ?_, ?_, rfl, rfl, rfl⟩
  · unfold withUnknown validateErrors
    rw [hp]
    rfl
  · simp [joiValue, hp, stripPayload]

/-- Witness for C5: the summation fixture carries the unknown fields
`submissionId` and `aggregateScore`; it validates, and its normalized
payload drops them. -/
theorem c5_unknown_fields_stripped_witness :
    ((joiValue summationEvent).payload = some (stripPayload
        { id := some (IdVal.num 42)
          resource := some "reviewSummation"
          submissionId := some "42"
          aggregateScore := some 90 })
      ∧ validateErrors summationEvent = []) :=
  ⟨(c5_unknown_fields_stripped summationEvent
      { id := some (IdVal.num 42)
        resource := some "reviewSummation"
        submissionId := some "42"
        aggregateScore := some 90 } rfl).2.1, by decide⟩

end LegacyMM
